import Mathlib

/-!
Verification development for the OneVote vote-ingestion and
results-aggregation subsystem.

The definitions below are a shallow embedding of the TypeScript
sources `polls.service.ts` (vote ledger: `castVote`, `handleVoteError`,
`saveVoteInTransaction`, `broadcastVoteEvent`) and `results.service.ts`
(aggregator and TTL cache: `getPollResults`, `computeResults`,
`countVotesByOption`, `buildOptionResults`, `calculateVoteVelocity`,
`getCachedResults`, `setCachedResults`, `invalidateCache`).

Modelling choices:
* timestamps (`Date` / `Date.now()`) are `Int` milliseconds since epoch;
* JS numbers used in the aggregation arithmetic are `ℚ`; `Math.round`
  is `jsRound q = ⌊q + 1/2⌋` (round half towards positive infinity);
* the in-memory `Map<string, CacheEntry>` is an association list with
  at most one live binding per key (`mapGet` / `mapSet` / `mapDelete`);
* the durable store is a list of `Vote` rows; the composite unique
  index on `(pollId, userUuid)` makes the transactional insert fail
  with the SQLite unique-constraint error exactly when a row with the
  same pair already exists;
* async control flow becomes explicit state passing; thrown exceptions
  become `Except` errors; the fire-and-forget broadcast is modelled
  inline (the source performs it inline without awaiting failures), with
  an injected `publishFails` flag standing for a subscriber failure that
  the `catch` in `broadcastVoteEvent` absorbs.
-/

/-- JS `Math.round`: rounds half away from zero for positive numbers,
in general towards positive infinity (`Math.round(x) = ⌊x + 0.5⌋`). -/
def jsRound (q : ℚ) : ℤ := ⌊q + 1/2⌋

/-- `Math.round(q * 100) / 100`, the "round to 2 decimals" idiom used in
`buildOptionResults` and `calculateVoteVelocity`. -/
def round2 (q : ℚ) : ℚ := ((jsRound (q * 100) : ℤ) : ℚ) / 100

/-- One answer option of a poll (`poll-option.entity.ts`). -/
structure PollOption where
  id : String
  text : String
deriving DecidableEq

/-- A poll (`poll.entity.ts`): question, ordered options, close time,
hide-results flag. -/
structure Poll where
  id : String
  question : String
  options : List PollOption
  closesAt : Int
  hideResultsUntilClose : Bool
deriving DecidableEq

/-- A durable vote row (`vote.entity.ts`), with the composite unique
index on `(pollId, userUuid)`. -/
structure Vote where
  id : String
  userUuid : String
  pollId : String
  optionId : String
  createdAt : Int
deriving DecidableEq

/-- The vote request body (`vote.dto.ts`). -/
structure VoteDto where
  optionId : String
  userUuid : String
deriving DecidableEq

/-- Per-option aggregate (`OptionResultDto`). -/
structure OptionResultDto where
  optionId : String
  text : String
  count : Nat
  percentage : ℚ
deriving DecidableEq

/-- Aggregated poll results (`PollResultsDto`). -/
structure PollResultsDto where
  total : Nat
  options : List OptionResultDto
  voteVelocityPerMinLast5 : ℚ
deriving DecidableEq

/-- What `ResultsService.getPollResults` returns: either the real
aggregates or the `HiddenResultsDto` variant. -/
inductive ResultsResponse where
  | results (data : PollResultsDto)
  | hidden (closesAt : Int)
deriving DecidableEq

/-- A cache entry: results plus the time they were computed
(`CacheEntry` in `results.service.ts`). -/
structure CacheEntry where
  data : PollResultsDto
  timestamp : Int
deriving DecidableEq

/-- The in-memory cache `Map<string, CacheEntry>`. -/
abbrev Cache := List (String × CacheEntry)

/-- An event published on `voteEvents$` (`VoteEvent` in
`polls.service.ts`). -/
structure VoteEvent where
  pollId : String
  results : ResultsResponse
deriving DecidableEq

/-- A low-level storage error as surfaced by the SQLite driver:
a code and a message. -/
structure StorageError where
  code : String
  message : String
deriving DecidableEq

/-- Domain-level errors of the vote/results paths, mirroring the Nest
exception taxonomy; `storage` is an untranslated storage error that is
re-thrown as-is. -/
inductive VoteError where
  | notFound (msg : String)
  | conflict (msg : String)
  | unprocessable (msg : String)
  | storage (e : StorageError)
deriving DecidableEq

/-! ### Association-list model of `Map<string, α>` -/

/-- `Map.get`: the value bound to `k`, if any. -/
def mapGet {α : Type} : List (String × α) → String → Option α
  | [], _ => none
  | (k', v) :: rest, k => if k' = k then some v else mapGet rest k

/-- `Map.set`: update the binding of `k` in place, or append it. -/
def mapSet {α : Type} : List (String × α) → String → α → List (String × α)
  | [], k, v => [(k, v)]
  | (k', v') :: rest, k, v =>
      if k' = k then (k, v) :: rest else (k', v') :: mapSet rest k v

/-- `Map.delete`: remove the binding of `k` (there is at most one live
binding per key in a JS `Map`, so removing every matching pair is the
same operation). -/
def mapDelete {α : Type} (m : List (String × α)) (k : String) : List (String × α) :=
  m.filter (fun p => p.1 ≠ k)

/-! ### Results aggregation (`results.service.ts`) -/

/-- `pollRepository.findOne({ where: { id: pollId } })`. -/
def findPoll (polls : List Poll) (pollId : String) : Option Poll :=
  polls.find? (fun p => p.id == pollId)

/-- `fetchAllVotesForPoll`: all stored votes whose `pollId` matches. -/
def votesForPoll (votes : List Vote) (pollId : String) : List Vote :=
  votes.filter (fun v => v.pollId == pollId)

/-- `shouldHideResults`: hide while the flag is set and `now` is still
strictly before the close time. -/
def shouldHideResults (now : Int) (poll : Poll) : Bool :=
  poll.hideResultsUntilClose && decide (now < poll.closesAt)

/-- `createHiddenResultsResponse`: the `{hidden: true, closesAt}` body. -/
def createHiddenResultsResponse (poll : Poll) : ResultsResponse :=
  ResultsResponse.hidden poll.closesAt

/-- `countVotesByOption`: start every option of the poll at zero, then
bump the counter keyed by each vote's `optionId` (creating the key when
the vote references an option the poll does not own). -/
def countVotesByOption (poll : Poll) (votes : List Vote) : List (String × Nat) :=
  let init := poll.options.foldl (fun m o => mapSet m o.id 0) []
  votes.foldl (fun m v => mapSet m v.optionId ((mapGet m v.optionId).getD 0 + 1)) init

/-- `buildOptionResults`: one entry per poll option, with its count and
`Math.round(count / total * 100 * 100) / 100` percentage (0 when there
are no votes). -/
def buildOptionResults (poll : Poll) (voteCounts : List (String × Nat))
    (totalVotes : Nat) : List OptionResultDto :=
  poll.options.map (fun option =>
    let count := (mapGet voteCounts option.id).getD 0
    let percentage : ℚ :=
      if totalVotes > 0 then ((count : ℚ) / (totalVotes : ℚ)) * 100 else 0
    { optionId := option.id
      text := option.text
      count := count
      percentage := round2 percentage })

/-- `calculateVoteVelocity`: votes per minute over the trailing five
minutes, `Math.round((recent.length / 5) * 100) / 100`. -/
def calculateVoteVelocity (now : Int) (votes : List Vote) : ℚ :=
  let fiveMinutesAgo := now - 5 * 60 * 1000
  let recentVotes := votes.filter (fun v => decide (fiveMinutesAgo ≤ v.createdAt))
  ((jsRound (((recentVotes.length : ℚ) / 5) * 100) : ℤ) : ℚ) / 100

/-- `computeResults`: the pure aggregator over the poll's vote set. -/
def computeResults (now : Int) (poll : Poll) (votes : List Vote) : PollResultsDto :=
  let totalVotes := votes.length
  let voteCounts := countVotesByOption poll votes
  let optionResults := buildOptionResults poll voteCounts totalVotes
  let voteVelocity := calculateVoteVelocity now votes
  { total := totalVotes
    options := optionResults
    voteVelocityPerMinLast5 := voteVelocity }

/-- `getCachedResults`: a hit returns the entry's data unchanged; an
entry older than the TTL is deleted and reported as a miss. Returns the
possibly-updated cache alongside the lookup result. -/
def getCachedResults (now ttl : Int) (cache : Cache) (pollId : String) :
    Option PollResultsDto × Cache :=
  match mapGet cache pollId with
  | none => (none, cache)
  | some entry =>
      if now - entry.timestamp > ttl then (none, mapDelete cache pollId)
      else (some entry.data, cache)

/-- `setCachedResults`: store the results under the current timestamp. -/
def setCachedResults (now : Int) (cache : Cache) (pollId : String)
    (results : PollResultsDto) : Cache :=
  mapSet cache pollId { data := results, timestamp := now }

/-- `invalidateCache`: unconditionally drop the poll's cache entry. -/
def invalidateCache (cache : Cache) (pollId : String) : Cache :=
  mapDelete cache pollId

/-- `ResultsService.getPollResults`: look the poll up (404 when absent),
short-circuit to the hidden variant, otherwise serve from cache or
recompute-and-cache. Returns the response and the updated cache. -/
def getPollResults (now ttl : Int) (polls : List Poll) (votes : List Vote)
    (cache : Cache) (pollId : String) : Except VoteError ResultsResponse × Cache :=
  match findPoll polls pollId with
  | none => (Except.error (VoteError.notFound s!"Poll with ID {pollId} not found"), cache)
  | some poll =>
      if shouldHideResults now poll then
        (Except.ok (createHiddenResultsResponse poll), cache)
      else
        match getCachedResults now ttl cache pollId with
        | (some data, cache1) => (Except.ok (ResultsResponse.results data), cache1)
        | (none, cache1) =>
            let fresh := computeResults now poll (votesForPoll votes poll.id)
            (Except.ok (ResultsResponse.results fresh),
             setCachedResults now cache1 pollId fresh)

/-! ### Vote ledger (`polls.service.ts`) -/

/-- Substring test on character lists, for `String.includes`. -/
def charsPrefixOf : List Char → List Char → Bool
  | [], _ => true
  | _ :: _, [] => false
  | a :: as, b :: bs => a == b && charsPrefixOf as bs

/-- Substring test on character lists (needle, haystack). -/
def charsInfixOf : List Char → List Char → Bool
  | as, [] => as.isEmpty
  | as, b :: bs => charsPrefixOf as (b :: bs) || charsInfixOf as bs

/-- JS `haystack.includes(needle)`. -/
def strIncludes (haystack needle : String) : Bool :=
  charsInfixOf needle.toList haystack.toList

/-- The test in `handleVoteError`:
`error.code === 'SQLITE_CONSTRAINT_UNIQUE' || error.message.includes('UNIQUE constraint failed')`. -/
def isUniqueViolation (e : StorageError) : Bool :=
  e.code == "SQLITE_CONSTRAINT_UNIQUE" || strIncludes e.message "UNIQUE constraint failed"

/-- `handleVoteError`: translate the unique-constraint storage failure
into a 409 Conflict; re-throw every other error unchanged. -/
def handleVoteError (e : StorageError) : VoteError :=
  if isUniqueViolation e then VoteError.conflict "User has already voted in this poll"
  else VoteError.storage e

/-- The error SQLite raises when the composite unique index on
`(pollId, userUuid)` is violated. -/
def uniqueViolationError : StorageError :=
  { code := "SQLITE_CONSTRAINT_UNIQUE"
    message := "UNIQUE constraint failed: votes.pollId, votes.userUuid" }

/-- `saveVoteInTransaction` seen from the storage layer: the atomic
insert commits the new row unless the `(pollId, userUuid)` unique index
already holds a matching row, in which case the transaction fails with
the SQLite unique-constraint error and nothing is persisted. -/
def insertVote (votes : List Vote) (v : Vote) : Except StorageError (List Vote) :=
  if votes.any (fun w => w.pollId == v.pollId && w.userUuid == v.userUuid) then
    Except.error uniqueViolationError
  else
    Except.ok (votes ++ [v])

/-- The vote row `manager.create(Vote, ...)` builds for the insert. -/
def newVoteOf (now : Int) (pollId voteId : String) (dto : VoteDto) : Vote :=
  { id := voteId
    userUuid := dto.userUuid
    pollId := pollId
    optionId := dto.optionId
    createdAt := now }

/-- Full service state: durable store, process-local cache, published
events. -/
structure AppState where
  polls : List Poll
  votes : List Vote
  cache : Cache
  events : List VoteEvent
deriving DecidableEq

/-- `broadcastVoteEvent`: recompute the current results (updating the
cache as `getPollResults` does) and publish them on `voteEvents$`; any
error — a failed lookup or a failing subscriber (`publishFails`) — is
caught and absorbed. -/
def broadcastVoteEvent (now ttl : Int) (publishFails : Bool) (polls : List Poll)
    (votes : List Vote) (cache : Cache) (events : List VoteEvent)
    (pollId : String) : Cache × List VoteEvent :=
  match getPollResults now ttl polls votes cache pollId with
  | (Except.ok r, cache1) =>
      if publishFails then (cache1, events)
      else (cache1, events ++ [{ pollId := pollId, results := r }])
  | (Except.error _, cache1) => (cache1, events)

/-- The post-commit step of a successful `castVote`: invalidate the
poll's cache entry, then broadcast fresh results. -/
def applyVoteSuccess (now ttl : Int) (publishFails : Bool) (st : AppState)
    (pollId : String) (votes' : List Vote) : AppState :=
  let cache1 := invalidateCache st.cache pollId
  let bc := broadcastVoteEvent now ttl publishFails st.polls votes' cache1 st.events pollId
  { st with votes := votes', cache := bc.1, events := bc.2 }

/-- The `try`/`catch` around the insert in `castVote`: a storage error
goes through `handleVoteError`; a committed insert triggers cache
invalidation and the broadcast and returns the success message. -/
def finishVote (now ttl : Int) (publishFails : Bool) (st : AppState) (pollId : String)
    (insertResult : Except StorageError (List Vote)) :
    Except VoteError String × AppState :=
  match insertResult with
  | Except.error e => (Except.error (handleVoteError e), st)
  | Except.ok votes' =>
      (Except.ok "Vote cast successfully", applyVoteSuccess now ttl publishFails st pollId votes')

/-- `PollsService.castVote`: poll lookup, open check, option-membership
check, then the transactional insert with conflict translation and the
post-commit cache/broadcast step. -/
def castVote (now ttl : Int) (publishFails : Bool) (st : AppState)
    (pollId voteId : String) (dto : VoteDto) : Except VoteError String × AppState :=
  match findPoll st.polls pollId with
  | none => (Except.error (VoteError.notFound s!"Poll with ID {pollId} not found"), st)
  | some poll =>
      if poll.closesAt ≤ now then
        (Except.error (VoteError.unprocessable "Poll has closed"), st)
      else
        match poll.options.find? (fun o => o.id == dto.optionId) with
        | none =>
            (Except.error (VoteError.notFound
              s!"Option with ID {dto.optionId} not found in this poll"), st)
        | some _ =>
            finishVote now ttl publishFails st pollId
              (insertVote st.votes (newVoteOf now pollId voteId dto))

/-- The spec's velocity formula, written from its words: "velocity =
round(count(votes with timestamp ≥ now − 5 minutes) / 5, 2)". Kept as a
separate definition to compare against `calculateVoteVelocity`. -/
def velocitySpec (now : Int) (votes : List Vote) : ℚ :=
  round2 (((votes.filter (fun v => decide (now - 5 * 60 * 1000 ≤ v.createdAt))).length : ℚ) / 5)

/-! ### Shared concrete data for the closed witnesses -/

/-- Sample option A. -/
def optA : PollOption := { id := "optA", text := "A" }

/-- Sample option B. -/
def optB : PollOption := { id := "optB", text := "B" }

/-- A sample open poll that never hides its results, closing at
t = 3600000 ms. -/
def pollOpen : Poll :=
  { id := "poll1", question := "favorite letter?"
    options := [optA, optB], closesAt := 3600000, hideResultsUntilClose := false }

/-- A sample poll with `hideResultsUntilClose = true`. -/
def pollHide : Poll :=
  { id := "poll2", question := "secret letter?"
    options := [optA, optB], closesAt := 3600000, hideResultsUntilClose := true }

/-- One existing vote by `u1` on `poll1`. -/
def voteU1 : Vote :=
  { id := "v1", userUuid := "u1", pollId := "poll1", optionId := "optA", createdAt := 0 }

/-- A vote by `u2` on `poll1` for option A. -/
def voteU2 : Vote :=
  { id := "v2", userUuid := "u2", pollId := "poll1", optionId := "optA", createdAt := 0 }

/-- A vote by `u3` on `poll1` for option B. -/
def voteU3 : Vote :=
  { id := "v3", userUuid := "u3", pollId := "poll1", optionId := "optB", createdAt := 0 }

/-- The spec's sample scenario: two votes for A, one for B. -/
def votes3 : List Vote := [voteU1, voteU2, voteU3]

/-- A vote referencing an option id that belongs to no option of
`poll1`. -/
def voteForeign : Vote :=
  { id := "vx", userUuid := "u9", pollId := "poll1", optionId := "optX", createdAt := 0 }

/-- A vote set containing a foreign-option vote. -/
def votesF : List Vote := [voteU1, voteU2, voteForeign]

/-- A baseline state: both sample polls, one vote, empty cache, no
events. -/
def stBase : AppState :=
  { polls := [pollOpen, pollHide], votes := [voteU1], cache := [], events := [] }

/-! ### Lemmas about the `Map` model -/

theorem mapGet_mapSet {α : Type} (m : List (String × α)) (j k : String) (v : α) :
    mapGet (mapSet m j v) k = if j = k then some v else mapGet m k := by
  induction m with
  | nil => simp [mapSet, mapGet]
  | cons p rest ih =>
      obtain ⟨k', v'⟩ := p
      by_cases hj : k' = j
      · simp only [mapSet, if_pos hj]
        by_cases hk : j = k
        · simp [mapGet, hk]
        · have hk' : ¬ k' = k := fun h => hk (hj ▸ h)
          simp [mapGet, hk, hk']
      · simp only [mapSet, if_neg hj]
        by_cases hk : k' = k
        · have hjk : ¬ j = k := fun h => hj (hk.trans h.symm)
          simp [mapGet, hk, hjk]
        · simp [mapGet, hk, ih]

theorem mapGet_mapDelete {α : Type} (m : List (String × α)) (j k : String) :
    mapGet (mapDelete m j) k = if j = k then none else mapGet m k := by
  induction m with
  | nil => simp [mapDelete, mapGet]
  | cons p rest ih =>
      obtain ⟨k', v'⟩ := p
      by_cases hj : k' = j
      · have : mapDelete ((k', v') :: rest) j = mapDelete rest j := by
          simp [mapDelete, List.filter, hj]
        rw [this, ih]
        by_cases hk : j = k
        · simp [hk]
        · have hk' : ¬ k' = k := fun h => hk (hj ▸ h)
          simp [mapGet, hk, hk']
      · have : mapDelete ((k', v') :: rest) j = (k', v') :: mapDelete rest j := by
          simp [mapDelete, List.filter, hj]
        rw [this]
        by_cases hk : k' = k
        · have hjk : ¬ j = k := fun h => hj (hk.trans h.symm)
          simp [mapGet, hk, hjk]
        · simp [mapGet, hk, ih]

theorem mapDelete_idem {α : Type} (m : List (String × α)) (k : String) :
    mapDelete (mapDelete m k) k = mapDelete m k := by
  simp [mapDelete, List.filter_filter]

theorem mapGet_eq_none_iff {α : Type} (m : List (String × α)) (k : String) :
    mapGet m k = none ↔ ∀ p ∈ m, p.1 ≠ k := by
  induction m with
  | nil => simp [mapGet]
  | cons p rest ih =>
      obtain ⟨k', v'⟩ := p
      by_cases hk : k' = k
      · subst hk; simp [mapGet]
      · simp [mapGet, hk, ih]

theorem mapDelete_of_get_none {α : Type} (m : List (String × α)) (k : String)
    (h : mapGet m k = none) : mapDelete m k = m := by
  rw [mapDelete, List.filter_eq_self]
  intro p hp
  have := (mapGet_eq_none_iff m k).mp h p hp
  simpa using this

/-! ### Lemmas about the aggregator -/

theorem mapGet_countFold (votes : List Vote) (m : List (String × Nat)) (k : String) (c : Nat)
    (h : mapGet m k = some c) :
    mapGet (votes.foldl
        (fun m v => mapSet m v.optionId ((mapGet m v.optionId).getD 0 + 1)) m) k
      = some (c + votes.countP (fun v => v.optionId == k)) := by
  induction votes generalizing m c with
  | nil => simpa using h
  | cons v rest ih =>
      simp only [List.foldl_cons]
      by_cases hv : v.optionId = k
      · have hm : mapGet m v.optionId = some c := by rw [hv]; exact h
        have h' : mapGet (mapSet m v.optionId ((mapGet m v.optionId).getD 0 + 1)) k
            = some (c + 1) := by
          rw [mapGet_mapSet, if_pos hv, hm]
          rfl
        rw [ih _ _ h', List.countP_cons]
        have : (fun w : Vote => w.optionId == k) v = true := by simpa using hv
        simp only [this, if_pos]
        congr 1
        omega
      · have h' : mapGet (mapSet m v.optionId ((mapGet m v.optionId).getD 0 + 1)) k
            = some c := by
          rw [mapGet_mapSet, if_neg hv]; exact h
        rw [ih _ _ h', List.countP_cons]
        have : (fun w : Vote => w.optionId == k) v = false := by simpa using hv
        simp [this]

theorem mapGet_initFold (options : List PollOption) (m : List (String × Nat)) (k : String)
    (h : k ∈ options.map PollOption.id ∨ mapGet m k = some 0) :
    mapGet (options.foldl (fun m o => mapSet m o.id 0) m) k = some 0 := by
  induction options generalizing m with
  | nil =>
      rcases h with h | h
      · simp at h
      · simpa using h
  | cons o rest ih =>
      simp only [List.foldl_cons]
      apply ih
      by_cases ho : o.id = k
      · right; rw [mapGet_mapSet, if_pos ho]
      · rcases h with h | h
        · rw [List.map_cons] at h
          rcases List.mem_cons.mp h with h' | h'
          · exact absurd h'.symm ho
          · left; exact h'
        · right; rw [mapGet_mapSet, if_neg ho]; exact h

theorem countVotesByOption_get (poll : Poll) (votes : List Vote) (k : String)
    (hk : k ∈ poll.options.map PollOption.id) :
    mapGet (countVotesByOption poll votes) k
      = some (votes.countP (fun v => v.optionId == k)) := by
  unfold countVotesByOption
  have hinit := mapGet_initFold poll.options [] k (Or.inl hk)
  simpa using mapGet_countFold votes _ k 0 hinit

theorem buildOptionResults_closed (poll : Poll) (votes : List Vote) (totalVotes : Nat) :
    buildOptionResults poll (countVotesByOption poll votes) totalVotes
      = poll.options.map (fun o =>
          { optionId := o.id
            text := o.text
            count := votes.countP (fun v => v.optionId == o.id)
            percentage := round2 (if totalVotes > 0 then
              ((votes.countP (fun v => v.optionId == o.id) : ℚ) / (totalVotes : ℚ)) * 100
              else 0) }) := by
  unfold buildOptionResults
  apply List.map_congr_left
  intro o ho
  have hget := countVotesByOption_get poll votes o.id (List.mem_map_of_mem PollOption.id ho)
  simp [hget]

theorem sum_indicator_zero (l : List String) (x : String) (hx : x ∉ l) :
    (l.map (fun y => if x = y then (1 : Nat) else 0)).sum = 0 := by
  induction l with
  | nil => simp
  | cons a as ih =>
      simp only [List.map_cons, List.sum_cons]
      have hax : ¬ x = a := fun hh => hx (by rw [hh]; exact List.mem_cons_self a as)
      rw [if_neg hax, ih (fun hm => hx (List.mem_cons_of_mem a hm))]

theorem sum_indicator_one (l : List String) (x : String) (hnd : l.Nodup) (hx : x ∈ l) :
    (l.map (fun y => if x = y then (1 : Nat) else 0)).sum = 1 := by
  induction l with
  | nil => simp at hx
  | cons a as ih =>
      obtain ⟨ha, has⟩ := List.nodup_cons.mp hnd
      simp only [List.map_cons, List.sum_cons]
      rcases List.mem_cons.mp hx with h | h
      · rw [if_pos h, sum_indicator_zero as x (by rw [h]; exact ha)]
      · have hax : ¬ x = a := fun hh => ha (hh ▸ h)
        rw [if_neg hax, ih has h]

theorem sum_counts_eq_length (options : List PollOption) (votes : List Vote)
    (hnd : (options.map PollOption.id).Nodup)
    (hval : ∀ v ∈ votes, v.optionId ∈ options.map PollOption.id) :
    (options.map (fun o => votes.countP (fun v => v.optionId == o.id))).sum
      = votes.length := by
  induction votes with
  | nil => simp [List.countP_nil]
  | cons v rest ih =>
      have hv := hval v (List.mem_cons_self v rest)
      have hrest : ∀ w ∈ rest, w.optionId ∈ options.map PollOption.id :=
        fun w hw => hval w (List.mem_cons_of_mem v hw)
      simp only [List.countP_cons]
      rw [List.sum_map_add, ih hrest]
      have hmap : (options.map (fun o =>
            if (fun w : Vote => w.optionId == o.id) v = true then (1 : Nat) else 0))
          = (options.map PollOption.id).map (fun y => if v.optionId = y then (1 : Nat) else 0) := by
        rw [List.map_map]
        apply List.map_congr_left
        intro o _
        by_cases h : v.optionId = o.id <;> simp [h]
      rw [hmap, sum_indicator_one (options.map PollOption.id) v.optionId hnd hv,
        List.length_cons]

/-! ### Lemmas about the vote ledger -/

theorem findPoll_id (polls : List Poll) (pollId : String) (p : Poll)
    (h : findPoll polls pollId = some p) : p.id = pollId := by
  have := List.find?_some h
  simpa using this

theorem insertVote_ok_eq (votes : List Vote) (v : Vote) (votes' : List Vote)
    (h : insertVote votes v = Except.ok votes') : votes' = votes ++ [v] := by
  unfold insertVote at h
  split at h
  · exact absurd h (by simp)
  · simpa using h.symm

theorem insertVote_error_eq (votes : List Vote) (v : Vote) (e : StorageError)
    (h : insertVote votes v = Except.error e) :
    e = uniqueViolationError ∧
      votes.any (fun w => w.pollId == v.pollId && w.userUuid == v.userUuid) = true := by
  unfold insertVote at h
  split at h
  · exact ⟨by simpa using h.symm, by assumption⟩
  · exact absurd h (by simp)

theorem insertVote_of_dup (votes : List Vote) (v : Vote)
    (h : votes.any (fun w => w.pollId == v.pollId && w.userUuid == v.userUuid) = true) :
    insertVote votes v = Except.error uniqueViolationError := by
  unfold insertVote
  rw [if_pos h]

/-- Exhaustive case analysis of `castVote`: it either fails and leaves
the state untouched, or the insert commits and the post-commit step
runs. -/
theorem castVote_cases (now ttl : Int) (pf : Bool) (st : AppState)
    (pollId voteId : String) (dto : VoteDto) :
    (∃ e, castVote now ttl pf st pollId voteId dto = (Except.error e, st)) ∨
    (∃ votes', insertVote st.votes (newVoteOf now pollId voteId dto) = Except.ok votes' ∧
      castVote now ttl pf st pollId voteId dto
        = (Except.ok "Vote cast successfully", applyVoteSuccess now ttl pf st pollId votes')) := by
  unfold castVote
  split
  · exact Or.inl ⟨_, rfl⟩
  · split
    · exact Or.inl ⟨_, rfl⟩
    · split
      · exact Or.inl ⟨_, rfl⟩
      · unfold finishVote
        split
        · exact Or.inl ⟨_, rfl⟩
        · next votes' hi => exact Or.inr ⟨votes', hi, rfl⟩

theorem castVote_snd_of_error (now ttl : Int) (pf : Bool) (st : AppState)
    (pollId voteId : String) (dto : VoteDto) (e : VoteError)
    (h : (castVote now ttl pf st pollId voteId dto).fst = Except.error e) :
    (castVote now ttl pf st pollId voteId dto).snd = st := by
  rcases castVote_cases now ttl pf st pollId voteId dto with ⟨e', he⟩ | ⟨votes', _, he⟩
  · rw [he]
  · rw [he] at h
    exact absurd h (by simp)

theorem castVote_ok_inversion (now ttl : Int) (pf : Bool) (st : AppState)
    (pollId voteId : String) (dto : VoteDto) (msg : String)
    (h : (castVote now ttl pf st pollId voteId dto).fst = Except.ok msg) :
    insertVote st.votes (newVoteOf now pollId voteId dto)
        = Except.ok (st.votes ++ [newVoteOf now pollId voteId dto]) ∧
      (castVote now ttl pf st pollId voteId dto).snd
        = applyVoteSuccess now ttl pf st pollId (st.votes ++ [newVoteOf now pollId voteId dto]) := by
  rcases castVote_cases now ttl pf st pollId voteId dto with ⟨e', he⟩ | ⟨votes', hi, he⟩
  · rw [he] at h
    exact absurd h (by simp)
  · have hv := insertVote_ok_eq _ _ _ hi
    subst hv
    exact ⟨hi, by rw [he]⟩

/-- Helper: the outcome of `castVote` never depends on whether the
broadcast publish fails — only the published event list does. -/
theorem castVote_fst_publish_irrel (now ttl : Int) (st : AppState)
    (pollId voteId : String) (dto : VoteDto) (pf pf' : Bool) :
    (castVote now ttl pf st pollId voteId dto).fst
      = (castVote now ttl pf' st pollId voteId dto).fst := by
  unfold castVote
  split
  · rfl
  · split
    · rfl
    · split
      · rfl
      · unfold finishVote
        split
        · rfl
        · rfl

/-- C1: a `castVote` whose atomic insert hits the `(poll, voter)`
uniqueness constraint fails with Conflict ("already voted"), and the
outcome is exactly the translation `handleVoteError` applies to the
constraint-violation error raised by the insert itself; the translation
recognizes specifically the unique-constraint failure and re-raises any
other storage error unchanged. -/
theorem castVote_conflict_from_constraint (now ttl : Int) (pf : Bool) (st : AppState)
    (pollId voteId : String) (dto : VoteDto) (poll : Poll)
    (hfind : findPoll st.polls pollId = some poll)
    (hopen : now < poll.closesAt)
    (hopt : (poll.options.find? (fun o => o.id == dto.optionId)).isSome) :
    (st.votes.any (fun w => w.pollId == pollId && w.userUuid == dto.userUuid) = true →
        insertVote st.votes (newVoteOf now pollId voteId dto)
            = Except.error uniqueViolationError ∧
          (castVote now ttl pf st pollId voteId dto).fst
            = Except.error (handleVoteError uniqueViolationError) ∧
          handleVoteError uniqueViolationError
            = VoteError.conflict "User has already voted in this poll")
    ∧ (∀ e : StorageError, isUniqueViolation e = true →
        handleVoteError e = VoteError.conflict "User has already voted in this poll")
    ∧ (∀ e : StorageError, isUniqueViolation e = false →
        handleVoteError e = VoteError.storage e) := by
  refine ⟨?_, ?_, ?_⟩
  · intro hdup
    have hins : insertVote st.votes (newVoteOf now pollId voteId dto)
        = Except.error uniqueViolationError := by
      apply insertVote_of_dup
      simpa [newVoteOf] using hdup
    refine ⟨hins, ?_, rfl⟩
    obtain ⟨o, ho⟩ := Option.isSome_iff_exists.mp hopt
    unfold castVote
    rw [hfind]
    simp only [if_neg (not_le.mpr hopen), ho]
    unfold finishVote
    rw [hins]
  · intro e he
    unfold handleVoteError
    rw [if_pos he]
  · intro e he
    unfold handleVoteError
    rw [if_neg (by simp [he])]

/-- C1 witness: voter `u1` already voted on `poll1`, so the same voter's
second vote fails with the translated Conflict. -/
theorem castVote_conflict_from_constraint_witness :
    (castVote 0 10000 false stBase "poll1" "v2"
        { optionId := "optA", userUuid := "u1" }).fst
      = Except.error (VoteError.conflict "User has already voted in this poll") := by
  have h := castVote_conflict_from_constraint 0 10000 false stBase "poll1" "v2"
    { optionId := "optA", userUuid := "u1" } pollOpen rfl (by decide) (by rfl)
  have h2 := h.1 (by rfl)
  rw [h2.2.1, h2.2.2]

/-- C2: a successful `castVote` persists exactly the one new vote row
(and reports success whether or not the broadcast publish fails), and
every failing `castVote` persists nothing. -/
theorem castVote_persistence (now ttl : Int) (pf : Bool) (st : AppState)
    (pollId voteId : String) (dto : VoteDto) :
    ((castVote now ttl pf st pollId voteId dto).fst = Except.ok "Vote cast successfully" →
      (castVote now ttl pf st pollId voteId dto).snd.votes
        = st.votes ++ [newVoteOf now pollId voteId dto])
    ∧ (∀ e, (castVote now ttl pf st pollId voteId dto).fst = Except.error e →
      (castVote now ttl pf st pollId voteId dto).snd.votes = st.votes)
    ∧ ((castVote now ttl true st pollId voteId dto).fst
        = (castVote now ttl false st pollId voteId dto).fst) := by
  refine ⟨?_, ?_, castVote_fst_publish_irrel now ttl st pollId voteId dto true false⟩
  · intro h
    have := (castVote_ok_inversion now ttl pf st pollId voteId dto _ h).2
    rw [this]
    simp [applyVoteSuccess]
  · intro e h
    rw [castVote_snd_of_error now ttl pf st pollId voteId dto e h]

/-- C2 witness: voter `u2` votes on `poll1` in the baseline state; the
persisted rows are the old rows plus exactly the new one. -/
theorem castVote_persistence_witness :
    (castVote 0 10000 false stBase "poll1" "v2"
        { optionId := "optB", userUuid := "u2" }).snd.votes
      = stBase.votes ++ [newVoteOf 0 "poll1" "v2" { optionId := "optB", userUuid := "u2" }] :=
  (castVote_persistence 0 10000 false stBase "poll1" "v2"
    { optionId := "optB", userUuid := "u2" }).1 (by rfl)

/-- C3: `castVote` validates in order — poll existence (NotFound), poll
still open (Unprocessable), option membership (NotFound) — each failure
leaving the state untouched, and only when all three checks pass does it
attempt the insert. -/
theorem castVote_validation_order (now ttl : Int) (pf : Bool) (st : AppState)
    (pollId voteId : String) (dto : VoteDto) :
    (findPoll st.polls pollId = none →
      castVote now ttl pf st pollId voteId dto
        = (Except.error (VoteError.notFound s!"Poll with ID {pollId} not found"), st))
    ∧ (∀ poll, findPoll st.polls pollId = some poll → poll.closesAt ≤ now →
      castVote now ttl pf st pollId voteId dto
        = (Except.error (VoteError.unprocessable "Poll has closed"), st))
    ∧ (∀ poll, findPoll st.polls pollId = some poll → now < poll.closesAt →
      poll.options.find? (fun o => o.id == dto.optionId) = none →
      castVote now ttl pf st pollId voteId dto
        = (Except.error (VoteError.notFound
            s!"Option with ID {dto.optionId} not found in this poll"), st))
    ∧ (∀ poll o, findPoll st.polls pollId = some poll → now < poll.closesAt →
      poll.options.find? (fun o => o.id == dto.optionId) = some o →
      castVote now ttl pf st pollId voteId dto
        = finishVote now ttl pf st pollId
            (insertVote st.votes (newVoteOf now pollId voteId dto))) := by
  refine ⟨?_, ?_, ?_, ?_⟩
  · intro h
    unfold castVote
    rw [h]
  · intro poll hfind hle
    unfold castVote
    rw [hfind]
    simp only [if_pos hle]
  · intro poll hfind hlt hopt
    unfold castVote
    rw [hfind]
    simp only [if_neg (not_le.mpr hlt), hopt]
  · intro poll o hfind hlt hopt
    unfold castVote
    rw [hfind]
    simp only [if_neg (not_le.mpr hlt), hopt]

/-- C3 witness: at t = 4000000 ms poll1 (closing at 3600000 ms) is
closed, so the vote fails with Unprocessable and the state is
untouched. -/
theorem castVote_validation_order_witness :
    castVote 4000000 10000 false stBase "poll1" "v2"
        { optionId := "optA", userUuid := "u2" }
      = (Except.error (VoteError.unprocessable "Poll has closed"), stBase) :=
  (castVote_validation_order 4000000 10000 false stBase "poll1" "v2"
    { optionId := "optA", userUuid := "u2" }).2.1 pollOpen rfl (by decide)

/-- C10: every failing `castVote` leaves the whole state — durable
votes, results cache, published events — exactly as it was; the
cache-invalidation and broadcast step runs only after a committed
insert. -/
theorem castVote_failure_frame (now ttl : Int) (pf : Bool) (st : AppState)
    (pollId voteId : String) (dto : VoteDto) :
    (∀ e, (castVote now ttl pf st pollId voteId dto).fst = Except.error e →
      (castVote now ttl pf st pollId voteId dto).snd = st)
    ∧ ((castVote now ttl pf st pollId voteId dto).fst = Except.ok "Vote cast successfully" →
      (castVote now ttl pf st pollId voteId dto).snd
        = applyVoteSuccess now ttl pf st pollId
            (st.votes ++ [newVoteOf now pollId voteId dto])) := by
  refine ⟨?_, ?_⟩
  · intro e h
    exact castVote_snd_of_error now ttl pf st pollId voteId dto e h
  · intro h
    exact (castVote_ok_inversion now ttl pf st pollId voteId dto _ h).2

/-- C10 witness: a duplicate vote fails and the state, cache and event
list included, is exactly the baseline state. -/
theorem castVote_failure_frame_witness :
    (castVote 0 10000 false stBase "poll1" "v2"
        { optionId := "optA", userUuid := "u1" }).snd = stBase :=
  (castVote_failure_frame 0 10000 false stBase "poll1" "v2"
    { optionId := "optA", userUuid := "u1" }).1
    (VoteError.conflict "User has already voted in this poll") (by rfl)

/-- Helper: `Math.round` is the identity on integers. -/
theorem jsRound_intCast (z : ℤ) : jsRound ((z : ℤ) : ℚ) = z := by
  unfold jsRound
  rw [add_comm, Int.floor_add_int]
  norm_num

/-- Helper: rounding zero to two decimals gives zero. -/
theorem round2_zero : round2 0 = 0 := by
  have h := jsRound_intCast 0
  simp only [round2, zero_mul]
  simp only [Int.cast_zero] at h
  rw [h]
  norm_num

/-- C4: for every poll whose option ids are distinct and every vote set
referencing only that poll's options, the aggregate satisfies the
percentage law — per-option counts sum to the total, each percentage is
`round(count / total * 100, 2)` when the total is positive, and every
percentage is 0 when the total is 0. -/
theorem computeResults_percentage_law (now : Int) (poll : Poll) (votes : List Vote)
    (hnd : (poll.options.map PollOption.id).Nodup)
    (hval : ∀ v ∈ votes, v.optionId ∈ poll.options.map PollOption.id) :
    (((computeResults now poll votes).options.map OptionResultDto.count).sum
        = (computeResults now poll votes).total)
    ∧ ((computeResults now poll votes).total > 0 →
        ∀ e ∈ (computeResults now poll votes).options,
          e.percentage
            = round2 (((e.count : ℚ) / ((computeResults now poll votes).total : ℚ)) * 100))
    ∧ ((computeResults now poll votes).total = 0 →
        ∀ e ∈ (computeResults now poll votes).options, e.percentage = 0) := by
  have hopts : (computeResults now poll votes).options
      = buildOptionResults poll (countVotesByOption poll votes) votes.length := rfl
  have htot : (computeResults now poll votes).total = votes.length := rfl
  refine ⟨?_, ?_, ?_⟩
  · rw [hopts, htot, buildOptionResults_closed, List.map_map]
    have : (OptionResultDto.count ∘ fun o : PollOption =>
        ({ optionId := o.id, text := o.text
           count := votes.countP (fun v => v.optionId == o.id)
           percentage := round2 (if votes.length > 0 then
             ((votes.countP (fun v => v.optionId == o.id) : ℚ) / (votes.length : ℚ)) * 100
             else 0) } : OptionResultDto))
        = fun o => votes.countP (fun v => v.optionId == o.id) := rfl
    rw [this]
    exact sum_counts_eq_length poll.options votes hnd hval
  · intro hpos e he
    rw [hopts, buildOptionResults_closed] at he
    obtain ⟨o, _, rfl⟩ := List.mem_map.mp he
    rw [htot] at hpos ⊢
    simp only [if_pos hpos]
  · intro hzero e he
    rw [hopts, buildOptionResults_closed] at he
    obtain ⟨o, _, rfl⟩ := List.mem_map.mp he
    rw [htot] at hzero
    simp only [hzero]
    simp only [Nat.lt_irrefl, if_neg (by omega : ¬ (0:Nat) < 0)]
    exact round2_zero

/-- C4 witness: in the spec's sample scenario (A: 2 votes, B: 1 vote)
the counts sum to the total of 3 and the percentages are 66.67 and
33.33. -/
theorem computeResults_percentage_law_witness :
    (((computeResults 0 pollOpen votes3).options.map OptionResultDto.count).sum
        = (computeResults 0 pollOpen votes3).total)
    ∧ (computeResults 0 pollOpen votes3).options.map OptionResultDto.percentage
        = [6667/100, 3333/100] := by
  refine ⟨(computeResults_percentage_law 0 pollOpen votes3 (by decide) (by decide)).1, ?_⟩
  simp +decide only [computeResults, buildOptionResults, countVotesByOption, votes3,
    pollOpen, optA, optB, voteU1, voteU2, voteU3, mapSet, mapGet, List.foldl, List.map,
    List.length, Option.getD]
  norm_num [round2, jsRound]

/-- C8: the computed vote velocity is exactly the spec's
`round(count(votes with timestamp ≥ now − 5 minutes) / 5, 2)` — a
votes-per-minute rate over the fixed trailing 5-minute window — and,
since `count / 5` always has at most two decimals, equals that rate
exactly. -/
theorem calculateVoteVelocity_matches_spec (now : Int) (votes : List Vote) :
    calculateVoteVelocity now votes = velocitySpec now votes
    ∧ calculateVoteVelocity now votes
      = ((votes.filter (fun v => decide (now - 5 * 60 * 1000 ≤ v.createdAt))).length : ℚ) / 5 := by
  constructor
  · rfl
  · have key : ∀ n : ℕ, ((jsRound (((n : ℚ) / 5) * 100) : ℤ) : ℚ) / 100 = (n : ℚ) / 5 := by
      intro n
      have harg : ((n : ℚ) / 5) * 100 = (((20 * (n : ℤ)) : ℤ) : ℚ) := by
        push_cast
        ring
      rw [harg, jsRound_intCast]
      push_cast
      ring
    exact key _

/-- C9: the options array of a computed (non-hidden) result has exactly
one entry per option of the poll, in the poll's stored option order,
counting for each option precisely the votes that reference it (0 when
none do); every stored vote — foreign-option votes included — is
counted in the total, and a vote whose option id matches no option of
the poll appears in no per-option entry. -/
theorem computeResults_options_shape (now : Int) (poll : Poll) (votes : List Vote) :
    ((computeResults now poll votes).options
        = poll.options.map (fun o =>
            { optionId := o.id, text := o.text
              count := votes.countP (fun v => v.optionId == o.id)
              percentage := round2 (if votes.length > 0 then
                ((votes.countP (fun v => v.optionId == o.id) : ℚ) / (votes.length : ℚ)) * 100
                else 0) }))
    ∧ ((computeResults now poll votes).options.map OptionResultDto.optionId
        = poll.options.map PollOption.id)
    ∧ ((computeResults now poll votes).total = votes.length)
    ∧ (∀ v ∈ votes, v.optionId ∉ poll.options.map PollOption.id →
        ∀ e ∈ (computeResults now poll votes).options, e.optionId ≠ v.optionId) := by
  have hopts : (computeResults now poll votes).options
      = buildOptionResults poll (countVotesByOption poll votes) votes.length := rfl
  have hclosed := buildOptionResults_closed poll votes votes.length
  refine ⟨hopts.trans hclosed, ?_, rfl, ?_⟩
  · rw [hopts, hclosed, List.map_map]
    rfl
  · intro v _ hvno e he
    rw [hopts, hclosed] at he
    obtain ⟨o, ho, rfl⟩ := List.mem_map.mp he
    intro hcontra
    exact hvno (hcontra ▸ List.mem_map_of_mem PollOption.id ho)

/-- C9 witness: with a foreign-option vote present, the entries are
still exactly poll1's two options in order, and the total still counts
all three stored votes. -/
theorem computeResults_options_shape_witness :
    ((computeResults 0 pollOpen votesF).options.map OptionResultDto.optionId
        = pollOpen.options.map PollOption.id)
    ∧ ((computeResults 0 pollOpen votesF).total = votesF.length) :=
  ⟨(computeResults_options_shape 0 pollOpen votesF).2.1,
   (computeResults_options_shape 0 pollOpen votesF).2.2.1⟩

/-! ### Lemmas about the results cache -/

/-- Helper: a cache hit within the TTL is served verbatim, cache
untouched. -/
theorem getPollResults_hit (now ttl : Int) (polls : List Poll) (votes : List Vote)
    (cache : Cache) (pollId : String) (poll : Poll) (entry : CacheEntry)
    (hfind : findPoll polls pollId = some poll)
    (hshow : shouldHideResults now poll = false)
    (hentry : mapGet cache pollId = some entry)
    (hfresh : now - entry.timestamp ≤ ttl) :
    getPollResults now ttl polls votes cache pollId
      = (Except.ok (ResultsResponse.results entry.data), cache) := by
  unfold getPollResults
  rw [hfind]
  simp only [hshow, Bool.false_eq_true, if_false]
  unfold getCachedResults
  rw [hentry]
  simp only [if_neg (not_lt.mpr hfresh)]

/-- Helper: a cache miss (no entry) recomputes and stores under the
current timestamp. -/
theorem getPollResults_miss_none (now ttl : Int) (polls : List Poll) (votes : List Vote)
    (cache : Cache) (pollId : String) (poll : Poll)
    (hfind : findPoll polls pollId = some poll)
    (hshow : shouldHideResults now poll = false)
    (hnone : mapGet cache pollId = none) :
    getPollResults now ttl polls votes cache pollId
      = (Except.ok (ResultsResponse.results (computeResults now poll (votesForPoll votes poll.id))),
         setCachedResults now cache pollId (computeResults now poll (votesForPoll votes poll.id))) := by
  unfold getPollResults
  rw [hfind]
  simp only [hshow, Bool.false_eq_true, if_false]
  unfold getCachedResults
  rw [hnone]

/-- Helper: an expired entry is discarded, then the miss path
recomputes and stores under the current timestamp. -/
theorem getPollResults_miss_expired (now ttl : Int) (polls : List Poll) (votes : List Vote)
    (cache : Cache) (pollId : String) (poll : Poll) (entry : CacheEntry)
    (hfind : findPoll polls pollId = some poll)
    (hshow : shouldHideResults now poll = false)
    (hentry : mapGet cache pollId = some entry)
    (hexp : now - entry.timestamp > ttl) :
    getPollResults now ttl polls votes cache pollId
      = (Except.ok (ResultsResponse.results (computeResults now poll (votesForPoll votes poll.id))),
         setCachedResults now (mapDelete cache pollId) pollId
           (computeResults now poll (votesForPoll votes poll.id))) := by
  unfold getPollResults
  rw [hfind]
  simp only [hshow, Bool.false_eq_true, if_false]
  unfold getCachedResults
  rw [hentry]
  simp only [if_pos hexp]

/-- C5: while `hideResultsUntilClose` is set and now is strictly before
the close time, `getPollResults` returns the `Hidden{closesAt}` variant
whatever the cache holds and however many votes exist, and stores
nothing in the cache; once the close time is reached, it returns real
aggregates. -/
theorem getPollResults_hidden_law (now ttl : Int) (polls : List Poll) (votes : List Vote)
    (cache : Cache) (pollId : String) (poll : Poll)
    (hfind : findPoll polls pollId = some poll) :
    (poll.hideResultsUntilClose = true → now < poll.closesAt →
      getPollResults now ttl polls votes cache pollId
        = (Except.ok (ResultsResponse.hidden poll.closesAt), cache))
    ∧ (poll.closesAt ≤ now →
      ∃ r, (getPollResults now ttl polls votes cache pollId).fst
        = Except.ok (ResultsResponse.results r)) := by
  constructor
  · intro hflag hlt
    have hhide : shouldHideResults now poll = true := by
      simp [shouldHideResults, hflag, hlt]
    unfold getPollResults
    rw [hfind]
    simp [hhide, createHiddenResultsResponse]
  · intro hge
    have hshow : shouldHideResults now poll = false := by
      simp [shouldHideResults, not_lt.mpr hge]
    rcases hc : mapGet cache pollId with _ | entry
    · exact ⟨_, by rw [getPollResults_miss_none now ttl polls votes cache pollId poll
        hfind hshow hc]⟩
    · by_cases hexp : now - entry.timestamp > ttl
      · exact ⟨_, by rw [getPollResults_miss_expired now ttl polls votes cache pollId poll
          entry hfind hshow hc hexp]⟩
      · exact ⟨entry.data, by rw [getPollResults_hit now ttl polls votes cache pollId poll
          entry hfind hshow hc (not_lt.mp hexp)]⟩

/-- C5 witness: `poll2` hides its results; before its close time the
response is the Hidden variant and a pre-existing cache entry is left
as-is; at the close time the response is a real aggregate. -/
theorem getPollResults_hidden_law_witness :
    (getPollResults 0 10000 [pollOpen, pollHide] [voteU1] [] "poll2"
        = (Except.ok (ResultsResponse.hidden 3600000), []))
    ∧ (∃ r, (getPollResults 3600000 10000 [pollOpen, pollHide] [voteU1] [] "poll2").fst
        = Except.ok (ResultsResponse.results r)) :=
  ⟨(getPollResults_hidden_law 0 10000 [pollOpen, pollHide] [voteU1] [] "poll2" pollHide
      rfl).1 rfl (by decide),
   (getPollResults_hidden_law 3600000 10000 [pollOpen, pollHide] [voteU1] [] "poll2" pollHide
      rfl).2 (by decide)⟩

/-- C6: a cached entry no older than the TTL is served verbatim with no
recomputation and no cache change — so a second read within the TTL
returns the identical output; an absent or expired entry leads to
recomputation from the vote set, storage under the current timestamp
(the expired entry being discarded first), and the fresh value being
returned. -/
theorem getPollResults_ttl_law (now ttl : Int) (polls : List Poll) (votes : List Vote)
    (cache : Cache) (pollId : String) (poll : Poll)
    (hfind : findPoll polls pollId = some poll)
    (hshow : shouldHideResults now poll = false) :
    (∀ entry, mapGet cache pollId = some entry → now - entry.timestamp ≤ ttl →
      getPollResults now ttl polls votes cache pollId
        = (Except.ok (ResultsResponse.results entry.data), cache))
    ∧ (mapGet cache pollId = none →
      getPollResults now ttl polls votes cache pollId
        = (Except.ok (ResultsResponse.results
              (computeResults now poll (votesForPoll votes poll.id))),
           setCachedResults now cache pollId
             (computeResults now poll (votesForPoll votes poll.id))))
    ∧ (∀ entry, mapGet cache pollId = some entry → now - entry.timestamp > ttl →
      getPollResults now ttl polls votes cache pollId
        = (Except.ok (ResultsResponse.results
              (computeResults now poll (votesForPoll votes poll.id))),
           setCachedResults now (mapDelete cache pollId) pollId
             (computeResults now poll (votesForPoll votes poll.id))))
    ∧ (∀ t2, shouldHideResults t2 poll = false → mapGet cache pollId = none →
      t2 - now ≤ ttl →
      (getPollResults t2 ttl polls votes
          (getPollResults now ttl polls votes cache pollId).snd pollId).fst
        = (getPollResults now ttl polls votes cache pollId).fst) := by
  refine ⟨?_, ?_, ?_, ?_⟩
  · intro entry hentry hfresh
    exact getPollResults_hit now ttl polls votes cache pollId poll entry
      hfind hshow hentry hfresh
  · intro hnone
    exact getPollResults_miss_none now ttl polls votes cache pollId poll hfind hshow hnone
  · intro entry hentry hexp
    exact getPollResults_miss_expired now ttl polls votes cache pollId poll entry
      hfind hshow hentry hexp
  · intro t2 hshow2 hnone hwin
    have h1 := getPollResults_miss_none now ttl polls votes cache pollId poll
      hfind hshow hnone
    rw [h1]
    have hstored : mapGet
        (setCachedResults now cache pollId (computeResults now poll (votesForPoll votes poll.id)))
        pollId
        = some { data := computeResults now poll (votesForPoll votes poll.id)
                 timestamp := now } := by
      unfold setCachedResults
      rw [mapGet_mapSet, if_pos rfl]
    have h2 := getPollResults_hit t2 ttl polls votes
      (setCachedResults now cache pollId (computeResults now poll (votesForPoll votes poll.id)))
      pollId poll
      { data := computeResults now poll (votesForPoll votes poll.id), timestamp := now }
      hfind hshow2 hstored (by simpa using hwin)
    rw [h2]

/-- C6 witness: with a fresh entry cached at t = 0 for poll1, a read at
t = 5000 (TTL 10000) returns the cached data verbatim with the cache
unchanged. -/
theorem getPollResults_ttl_law_witness :
    getPollResults 5000 10000 [pollOpen, pollHide] [voteU1]
        [("poll1", { data := { total := 7, options := [], voteVelocityPerMinLast5 := 0 },
                     timestamp := 0 })] "poll1"
      = (Except.ok (ResultsResponse.results
          { total := 7, options := [], voteVelocityPerMinLast5 := 0 }),
         [("poll1", { data := { total := 7, options := [], voteVelocityPerMinLast5 := 0 },
                      timestamp := 0 })]) :=
  (getPollResults_ttl_law 5000 10000 [pollOpen, pollHide] [voteU1]
      [("poll1", { data := { total := 7, options := [], voteVelocityPerMinLast5 := 0 },
                   timestamp := 0 })] "poll1" pollOpen rfl (by decide)).1
    { data := { total := 7, options := [], voteVelocityPerMinLast5 := 0 }, timestamp := 0 }
    rfl (by decide)

/-- Helper: starting from a cache with no entry for the poll (as right
after invalidation), the broadcast step leaves the poll either uncached
(hidden polls, absorbed errors) or cached with exactly the fresh
aggregate of the new vote set, timestamped now. -/
theorem broadcastVoteEvent_cache_get (now ttl : Int) (pf : Bool) (polls : List Poll)
    (votes' : List Vote) (cache1 : Cache) (events : List VoteEvent)
    (pollId : String) (poll : Poll)
    (hfind : findPoll polls pollId = some poll)
    (hnone : mapGet cache1 pollId = none) :
    mapGet (broadcastVoteEvent now ttl pf polls votes' cache1 events pollId).1 pollId = none
    ∨ mapGet (broadcastVoteEvent now ttl pf polls votes' cache1 events pollId).1 pollId
        = some { data := computeResults now poll (votesForPoll votes' poll.id)
                 timestamp := now } := by
  unfold broadcastVoteEvent
  by_cases hhide : shouldHideResults now poll = true
  · have hg : getPollResults now ttl polls votes' cache1 pollId
        = (Except.ok (ResultsResponse.hidden poll.closesAt), cache1) := by
      unfold getPollResults
      rw [hfind]
      simp [hhide, createHiddenResultsResponse]
    rw [hg]
    left
    cases pf <;> simpa using hnone
  · have hshow : shouldHideResults now poll = false := by
      exact Bool.eq_false_iff.mpr hhide
    have hg := getPollResults_miss_none now ttl polls votes' cache1 pollId poll
      hfind hshow hnone
    rw [hg]
    right
    have hset : mapGet (setCachedResults now cache1 pollId
        (computeResults now poll (votesForPoll votes' poll.id))) pollId
        = some { data := computeResults now poll (votesForPoll votes' poll.id)
                 timestamp := now } := by
      unfold setCachedResults
      rw [mapGet_mapSet, if_pos rfl]
    cases pf <;> simpa using hset

/-- Helper: the vote row filter distributes over the appended new
vote. -/
theorem votesForPoll_append_new (votes : List Vote) (v : Vote) (k : String)
    (hv : v.pollId = k) :
    votesForPoll (votes ++ [v]) k = votesForPoll votes k ++ [v] := by
  unfold votesForPoll
  rw [List.filter_append]
  congr 1
  simp [hv]

/-- Helper: after a successful vote, a later read of that poll's
results (at any time the poll is not hiding them) yields a real
aggregate whose total includes the new vote. -/
theorem postVote_read_reflects (now ttl t2 : Int) (pf : Bool) (st : AppState)
    (pollId voteId : String) (dto : VoteDto) (poll : Poll)
    (hfind : findPoll st.polls pollId = some poll)
    (hok : (castVote now ttl pf st pollId voteId dto).fst = Except.ok "Vote cast successfully")
    (hshow2 : shouldHideResults t2 poll = false) :
    ∃ r, (getPollResults t2 ttl (castVote now ttl pf st pollId voteId dto).snd.polls
            (castVote now ttl pf st pollId voteId dto).snd.votes
            (castVote now ttl pf st pollId voteId dto).snd.cache pollId).fst
        = Except.ok (ResultsResponse.results r)
      ∧ r.total = (votesForPoll st.votes pollId).length + 1 := by
  obtain ⟨hins, hsnd⟩ := castVote_ok_inversion now ttl pf st pollId voteId dto _ hok
  rw [hsnd]
  have hpolls : (applyVoteSuccess now ttl pf st pollId
      (st.votes ++ [newVoteOf now pollId voteId dto])).polls = st.polls := rfl
  have hvotes : (applyVoteSuccess now ttl pf st pollId
      (st.votes ++ [newVoteOf now pollId voteId dto])).votes
      = st.votes ++ [newVoteOf now pollId voteId dto] := rfl
  have hcache : (applyVoteSuccess now ttl pf st pollId
      (st.votes ++ [newVoteOf now pollId voteId dto])).cache
      = (broadcastVoteEvent now ttl pf st.polls
          (st.votes ++ [newVoteOf now pollId voteId dto])
          (invalidateCache st.cache pollId) st.events pollId).1 := rfl
  rw [hpolls, hvotes, hcache]
  have hpid : poll.id = pollId := findPoll_id st.polls pollId poll hfind
  have hvp : votesForPoll (st.votes ++ [newVoteOf now pollId voteId dto]) poll.id
      = votesForPoll st.votes poll.id ++ [newVoteOf now pollId voteId dto] :=
    votesForPoll_append_new st.votes _ poll.id (by rw [hpid]; rfl)
  have hlen : (votesForPoll (st.votes ++ [newVoteOf now pollId voteId dto]) poll.id).length
      = (votesForPoll st.votes pollId).length + 1 := by
    rw [hvp, List.length_append, hpid]
    rfl
  have hnone1 : mapGet (invalidateCache st.cache pollId) pollId = none := by
    unfold invalidateCache
    rw [mapGet_mapDelete, if_pos rfl]
  rcases broadcastVoteEvent_cache_get now ttl pf st.polls
      (st.votes ++ [newVoteOf now pollId voteId dto])
      (invalidateCache st.cache pollId) st.events pollId poll hfind hnone1 with hb | hb
  · refine ⟨computeResults t2 poll
        (votesForPoll (st.votes ++ [newVoteOf now pollId voteId dto]) poll.id), ?_, hlen⟩
    rw [getPollResults_miss_none t2 ttl st.polls
      (st.votes ++ [newVoteOf now pollId voteId dto]) _ pollId poll hfind hshow2 hb]
  · by_cases hfresh : t2 - now ≤ ttl
    · refine ⟨computeResults now poll
          (votesForPoll (st.votes ++ [newVoteOf now pollId voteId dto]) poll.id), ?_, hlen⟩
      rw [getPollResults_hit t2 ttl st.polls
        (st.votes ++ [newVoteOf now pollId voteId dto]) _ pollId poll _ hfind hshow2 hb
        (by simpa using hfresh)]
    · refine ⟨computeResults t2 poll
          (votesForPoll (st.votes ++ [newVoteOf now pollId voteId dto]) poll.id), ?_, hlen⟩
      rw [getPollResults_miss_expired t2 ttl st.polls
        (st.votes ++ [newVoteOf now pollId voteId dto]) _ pollId poll _ hfind hshow2 hb
        (by simpa using not_le.mp hfresh)]

/-- C7: `invalidateCache` unconditionally removes the poll's cache
entry, is idempotent, and is a no-op when no entry exists; and after a
successful vote (whose post-commit step invalidates that poll's entry)
the next read of that poll's results — at any later time, within the
old TTL window or not — reflects the new vote in its total. -/
theorem invalidateCache_law :
    (∀ (cache : Cache) (pollId : String),
      mapGet (invalidateCache cache pollId) pollId = none)
    ∧ (∀ (cache : Cache) (pollId : String),
      invalidateCache (invalidateCache cache pollId) pollId = invalidateCache cache pollId)
    ∧ (∀ (cache : Cache) (pollId : String), mapGet cache pollId = none →
      invalidateCache cache pollId = cache)
    ∧ (∀ (now ttl t2 : Int) (pf : Bool) (st : AppState) (pollId voteId : String)
        (dto : VoteDto) (poll : Poll),
      findPoll st.polls pollId = some poll →
      (castVote now ttl pf st pollId voteId dto).fst = Except.ok "Vote cast successfully" →
      shouldHideResults t2 poll = false →
      ∃ r, (getPollResults t2 ttl (castVote now ttl pf st pollId voteId dto).snd.polls
              (castVote now ttl pf st pollId voteId dto).snd.votes
              (castVote now ttl pf st pollId voteId dto).snd.cache pollId).fst
          = Except.ok (ResultsResponse.results r)
        ∧ r.total = (votesForPoll st.votes pollId).length + 1) := by
  refine ⟨?_, ?_, ?_, ?_⟩
  · intro cache pollId
    unfold invalidateCache
    rw [mapGet_mapDelete, if_pos rfl]
  · intro cache pollId
    exact mapDelete_idem cache pollId
  · intro cache pollId h
    exact mapDelete_of_get_none cache pollId h
  · intro now ttl t2 pf st pollId voteId dto poll hfind hok hshow2
    exact postVote_read_reflects now ttl t2 pf st pollId voteId dto poll hfind hok hshow2

/-- C7 witness: deleting poll1's entry from a one-entry cache leaves no
entry and repeating it changes nothing; an empty cache is untouched;
and after `u2`'s successful vote on poll1 the next read's total is 2 =
1 old vote + the new one. -/
theorem invalidateCache_law_witness :
    (mapGet (invalidateCache
        [("poll1", { data := { total := 0, options := [], voteVelocityPerMinLast5 := 0 },
                     timestamp := 0 })] "poll1") "poll1" = none)
    ∧ (invalidateCache ([] : Cache) "poll1" = ([] : Cache))
    ∧ (∃ r, (getPollResults 1 10000
          (castVote 0 10000 false stBase "poll1" "v2"
            { optionId := "optB", userUuid := "u2" }).snd.polls
          (castVote 0 10000 false stBase "poll1" "v2"
            { optionId := "optB", userUuid := "u2" }).snd.votes
          (castVote 0 10000 false stBase "poll1" "v2"
            { optionId := "optB", userUuid := "u2" }).snd.cache "poll1").fst
        = Except.ok (ResultsResponse.results r)
      ∧ r.total = (votesForPoll stBase.votes "poll1").length + 1) :=
  ⟨invalidateCache_law.1
      [("poll1", { data := { total := 0, options := [], voteVelocityPerMinLast5 := 0 },
                   timestamp := 0 })] "poll1",
   invalidateCache_law.2.2.1 ([] : Cache) "poll1" rfl,
   invalidateCache_law.2.2.2 0 10000 1 false stBase "poll1" "v2"
     { optionId := "optB", userUuid := "u2" } pollOpen rfl (by rfl) (by decide)⟩
